import Mathlib

/-!
Verification of the ferndev client libraries: the `callAction` transport
(`packages/core/index.ts`), the WooCommerce cart facade
(`packages/woo/src/cart.ts`), the loading-state store (stores module), and
the price formatter.  JavaScript values exchanged over the wire are modelled
by an explicit JSON inductive; JS numbers that the claims exercise are
modelled as rationals (`ℚ`) and machine integers as `Int`/`Nat`; the browser
environment (window presence, origins, fetch outcome) is modelled as an
explicit environment record, and one `callAction` invocation is modelled as
a pure function from that environment to a trace recording the returned
result, the single network request (if any), the timer lifecycle and the
final state of the caller's `args` value.
-/

/-- A JSON value, as produced by `JSON.parse` / consumed by `JSON.stringify`.
`num` is restricted to integers: every numeric field the library sends
(quantities, ids) is an integer. -/
inductive Json where
  | null
  | bool (b : Bool)
  | num (n : Int)
  | str (s : String)
  | arr (xs : List Json)
  | obj (fields : List (String × Json))

mutual

/-- Structural equality test for JSON values (used only to obtain
decidability of equations in concrete evaluations). -/
def Json.beq : Json → Json → Bool
  | .null, .null => true
  | .bool a, .bool b => a == b
  | .num a, .num b => a == b
  | .str a, .str b => a == b
  | .arr a, .arr b => Json.beqList a b
  | .obj a, .obj b => Json.beqFields a b
  | _, _ => false

def Json.beqList : List Json → List Json → Bool
  | [], [] => true
  | a :: as, b :: bs => Json.beq a b && Json.beqList as bs
  | _, _ => false

def Json.beqFields : List (String × Json) → List (String × Json) → Bool
  | [], [] => true
  | (k1, v1) :: as, (k2, v2) :: bs => k1 == k2 && Json.beq v1 v2 && Json.beqFields as bs
  | _, _ => false

end

/-- Escape one character for a JSON string literal (the characters the
payloads of this development can contain). -/
def jsonEscapeChar (c : Char) : String :=
  if c = '"' then "\\\""
  else if c = '\\' then "\\\\"
  else if c = '\n' then "\\n"
  else if c = '\r' then "\\r"
  else if c = '\t' then "\\t"
  else String.singleton c

/-- A JSON string literal with quotes, as `JSON.stringify` renders strings. -/
def jsonEscape (s : String) : String :=
  "\"" ++ String.join (s.data.map jsonEscapeChar) ++ "\""

mutual

/-- `JSON.stringify` on the JSON model (insertion order preserved, no
whitespace), as used for the request body in `callAction`. -/
def Json.stringify : Json → String
  | .null => "null"
  | .bool true => "true"
  | .bool false => "false"
  | .num n => toString n
  | .str s => jsonEscape s
  | .arr xs => "[" ++ Json.stringifyList xs ++ "]"
  | .obj fs => "\x7b" ++ Json.stringifyFields fs ++ "\x7d"

def Json.stringifyList : List Json → String
  | [] => ""
  | [x] => Json.stringify x
  | x :: y :: rest => Json.stringify x ++ "," ++ Json.stringifyList (y :: rest)

def Json.stringifyFields : List (String × Json) → String
  | [] => ""
  | [(k, v)] => jsonEscape k ++ ":" ++ Json.stringify v
  | (k, v) :: p :: rest => jsonEscape k ++ ":" ++ Json.stringify v ++ "," ++ Json.stringifyFields (p :: rest)

end

/-- JavaScript object update `obj[k] = v` / spread-override semantics: if the
key already exists its value is replaced in place (insertion order kept),
otherwise the pair is appended.  `\x7b ...args, _nonce: nonce \x7d` in the
source is `objInsert args "_nonce" nonce`. -/
def objInsert (fields : List (String × Json)) (k : String) (v : Json) : List (String × Json) :=
  if (fields.map Prod.fst).contains k then
    fields.map (fun p => if p.1 = k then (k, v) else p)
  else fields ++ [(k, v)]

/-- Property lookup `data[k]` on a parsed-JSON value: only objects have
string-keyed properties (arrays expose index keys, none of which are the
string keys the source reads). -/
def jsonGet (j : Json) (k : String) : Option Json :=
  match j with
  | .obj fs => fs.lookup k
  | _ => none

/-- A thrown JavaScript value as seen by the `catch` handler of `callAction`:
whether it is an `Error` instance, its `name`, its `message`, and the value
of its `status` property if one is set. -/
structure JsErr where
  isError : Bool
  name : String
  message : String
  status : Option Int

/-- The rejection produced when the timeout's `AbortController` aborts the
in-flight `fetch`. -/
def abortErr : JsErr :=
  { isError := true, name := "AbortError", message := "The operation was aborted.", status := none }

/-- The `error` field of an action result: `\x7b message, status? \x7d`. -/
structure FernError where
  message : String
  status : Option Int
deriving DecidableEq

/-- The `data` field of a successful action result: the parsed JSON body
when the response declared a JSON content type, the raw text otherwise. -/
inductive RespData where
  | jsonData (j : Json)
  | textData (s : String)

/-- The value `callAction` resolves to: `\x7b data?, error?, status \x7d`
with `status` the literal string the source assigns (`'ok'` / `'error'`). -/
structure ActionResponse where
  status : String
  data : Option RespData
  error : Option FernError

/-- A resolved `fetch`: HTTP status, declared content type, the outcome of
`res.json()` (which itself can reject on a malformed body), and the text
body. -/
structure FetchResponse where
  httpStatus : Nat
  contentType : Option String
  jsonParse : Except JsErr Json
  textBody : String

/-- The behaviour of the network for the single `fetch` a call issues:
it resolves, it rejects, or it never settles before the timeout timer
fires (in which case the abort controller rejects it with `AbortError`). -/
inductive FetchBehavior where
  | resolves (r : FetchResponse)
  | rejects (e : JsErr)
  | hangs

/-- The browser environment a `callAction` invocation runs in: whether
`window` exists, the current page URL `window.location.href`, the origin of
that URL (`new URL(href).origin`), `window.origin`, and the network
behaviour of the `fetch` call. -/
structure Env where
  browser : Bool
  href : String
  hrefOrigin : String
  windowOrigin : String
  fetchBehavior : FetchBehavior

/-- The `args` parameter of `callAction`: a plain mapping or a `FormData`
(entries as an ordered multimap of string pairs); the source additionally
defends against a raw string or `null`/`undefined` slipping past the type
system, so those are representable too. -/
inductive ActionArgs where
  | plainObj (fields : List (String × Json))
  | formData (entries : List (String × String))
  | rawString (s : String)
  | nullish

/-- A request body: a JSON string or multipart form entries. -/
inductive Body where
  | jsonStr (s : String)
  | form (entries : List (String × String))
deriving DecidableEq

/-- Everything observable about one `callAction` invocation: the value the
promise resolves to, the network request issued (if any), whether the
timeout timer was armed and whether `clearTimeout` was invoked, and the
state of the caller's `args` value after the call (a `FormData` argument is
mutated in place by the source; all other shapes are left alone). -/
structure CallTrace where
  result : ActionResponse
  finalArgs : ActionArgs
  fetchCalled : Bool
  fetchUrl : Option String
  fetchMethod : Option String
  fetchHeaders : List (String × String)
  fetchBody : Option Body
  timerArmed : Bool
  timerCleared : Bool

/-- `options.timeout || 30000`: `undefined` and `0` are falsy, every other
number is used as given. -/
def jsOrTimeout : Option Int → Int
  | some v => if v = 0 then 30000 else v
  | none => 30000

/-- `(err as any).status || 500`: an absent or `0` status falls back to 500. -/
def jsOrStatus : Option Int → Int
  | some v => if v = 0 then 500 else v
  | none => 500

/-- `contentType?.includes('application/json')`. -/
def ctIncludesJson : Option String → Bool
  | none => false
  | some s => (s.splitOn "application/json").length ≥ 2

/-- The `catch` block of `callAction`: an `AbortError` becomes the timeout
result (408); any other cause keeps its carried status (defaulting to 500)
and its message when it is an `Error` (otherwise `'Request failed'`). -/
def catchHandler (timeout : Int) (e : JsErr) : ActionResponse :=
  if e.isError && e.name == "AbortError" then
    { status := "error", data := none,
      error := some { message := s!"Request timeout after {timeout}ms", status := some 408 } }
  else
    { status := "error", data := none,
      error := some { message := if e.isError then e.message else "Request failed",
                      status := some (jsOrStatus e.status) } }

/-- The body/headers encoding step of `callAction`, also yielding the final
state of the caller's `args`: a `FormData` gets `action` appended, plus
`_nonce` and `args[_nonce]` when the nonce is non-empty (mutating the
caller's value); a plain mapping is wrapped as
`\x7b action, args: argsWithNonce, _nonce \x7d` and serialized as JSON,
where `argsWithNonce` is a spread copy with `_nonce` set only when the
nonce is non-empty; a raw string or nullish `args` is normalized to the
empty mapping (after logging) without touching the caller's value. -/
def encodeArgs (action : String) (args : ActionArgs) (nonce : String) :
    Body × List (String × String) × ActionArgs :=
  match args with
  | .formData fd =>
    let fd1 := fd ++ [("action", action)]
    let fd2 := if nonce ≠ "" then fd1 ++ [("_nonce", nonce), ("args[_nonce]", nonce)] else fd1
    (.form fd2, [], .formData fd2)
  | other =>
    let fields : List (String × Json) :=
      match other with
      | .plainObj fs => fs
      | _ => []
    let argsWithNonce := if nonce ≠ "" then objInsert fields "_nonce" (.str nonce) else fields
    let bodyStr := Json.stringify (.obj
      [("action", .str action), ("args", .obj argsWithNonce), ("_nonce", .str nonce)])
    (.jsonStr bodyStr, [("Content-Type", "application/json")], other)

/-- One invocation of `callAction(action, args, nonce, options)` from
`packages/core/index.ts` against environment `env`.  Guards run first
(non-browser 400, cross-origin 403) and return without arming the timer or
touching the network; past the guards the timer is armed, the body is
encoded, the marker header `X-Fern-Action` is set and one POST to the
current page URL is issued; the response path returns `ok` with parsed JSON
or raw text, non-2xx statuses are thrown as `HTTP error \x7bstatus\x7d` and
all exceptions funnel through `catchHandler`.  `clearTimeout` runs on the
success path and again in `catch`, so every path past the guards clears the
timer.  Which side of the fetch/timer race wins is encoded in
`env.fetchBehavior` (`hangs` = timer wins and the abort rejects the fetch). -/
def callAction (action : String) (args : ActionArgs) (nonce : String)
    (timeoutOpt : Option Int) (env : Env) : CallTrace :=
  if env.browser = false then
    { result := { status := "error", data := none,
                  error := some { message := "you can only call actions from the browser", status := some 400 } },
      finalArgs := args, fetchCalled := false, fetchUrl := none, fetchMethod := none,
      fetchHeaders := [], fetchBody := none, timerArmed := false, timerCleared := false }
  else if env.hrefOrigin ≠ env.windowOrigin then
    { result := { status := "error", data := none,
                  error := some { message := "Cross-origin action requests not allowed", status := some 403 } },
      finalArgs := args, fetchCalled := false, fetchUrl := none, fetchMethod := none,
      fetchHeaders := [], fetchBody := none, timerArmed := false, timerCleared := false }
  else
    let timeout := jsOrTimeout timeoutOpt
    let enc := encodeArgs action args nonce
    let headers := enc.2.1 ++ [("X-Fern-Action", "")]
    let result : ActionResponse :=
      match env.fetchBehavior with
      | .hangs => catchHandler timeout abortErr
      | .rejects e => catchHandler timeout e
      | .resolves r =>
        if ¬(200 ≤ r.httpStatus ∧ r.httpStatus ≤ 299) then
          let httpError : JsErr :=
            { isError := true, name := "Error",
              message := s!"HTTP error {r.httpStatus}", status := some (Int.ofNat r.httpStatus) }
          catchHandler timeout httpError
        else if ctIncludesJson r.contentType then
          match r.jsonParse with
          | .ok j => { status := "ok", data := some (.jsonData j), error := none }
          | .error e => catchHandler timeout e
        else
          { status := "ok", data := some (.textData r.textBody), error := none }
    { result := result,
      finalArgs := enc.2.2, fetchCalled := true, fetchUrl := some env.href,
      fetchMethod := some "POST", fetchHeaders := headers, fetchBody := some enc.1,
      timerArmed := true, timerCleared := true }

/-! ## Loading-state store (stores module of `@ferndev/woo`) -/

/-- The module-level loading state: the internal counter
`loadingOperationsCount` and the `$cartIsLoading` atom value. -/
structure LoadingState where
  loadingOperationsCount : Int
  cartIsLoading : Bool

/-- The state at module load: counter `0`, `$cartIsLoading` = `false`. -/
def loadingStart : LoadingState :=
  { loadingOperationsCount := 0, cartIsLoading := false }

/-- `incrementLoadingState`: bump the counter; set the flag on the 0 → 1
transition (`if (loadingOperationsCount === 1)`). -/
def incrementLoadingState (s : LoadingState) : LoadingState :=
  let c := s.loadingOperationsCount + 1
  { loadingOperationsCount := c,
    cartIsLoading := if c = 1 then true else s.cartIsLoading }

/-- `decrementLoadingState`: drop the counter; when it reaches (or would
pass) zero, clamp it to zero and clear the flag. -/
def decrementLoadingState (s : LoadingState) : LoadingState :=
  let c := s.loadingOperationsCount - 1
  if c ≤ 0 then { loadingOperationsCount := 0, cartIsLoading := false }
  else { loadingOperationsCount := c, cartIsLoading := s.cartIsLoading }

/-- A single synchronous counter event: the increment a facade operation
performs on entry, or the decrement its `finally` block performs. -/
inductive LoadOp where
  | inc
  | dec

/-- Run a sequence of counter events (the interleaving order in which the
event loop executed them) from a given state. -/
def runLoadOps (s : LoadingState) : List LoadOp → LoadingState
  | [] => s
  | .inc :: rest => runLoadOps (incrementLoadingState s) rest
  | .dec :: rest => runLoadOps (decrementLoadingState s) rest

/-- Number of increments in a trace. -/
def incCount : List LoadOp → Int
  | [] => 0
  | .inc :: rest => incCount rest + 1
  | .dec :: rest => incCount rest

/-- Number of decrements in a trace. -/
def decCount : List LoadOp → Int
  | [] => 0
  | .inc :: rest => decCount rest
  | .dec :: rest => decCount rest + 1

/-- A trace is admissible from a virtual height `k` when no decrement
outruns the increments that precede it: exactly the traces arising as
interleavings of facade operations, each of which increments on entry and
decrements once on settlement (the `finally` block), so in every prefix
the decrements never exceed `k` plus the increments. -/
def AdmissibleTrace : Int → List LoadOp → Bool
  | _, [] => true
  | k, .inc :: rest => AdmissibleTrace (k + 1) rest
  | k, .dec :: rest => (1 ≤ k) && AdmissibleTrace (k - 1) rest

/-! ## Cart facade (`packages/woo/src/cart.ts`) -/

/-- `DEFAULT_CART` from the source, as the runtime JSON object it is. -/
def DEFAULT_CART : Json :=
  .obj [("items", .arr []), ("subtotal", .str "0"), ("total", .str "0"),
        ("item_count", .num 0), ("tax_total", .str "0"),
        ("needs_shipping", .bool false), ("shipping_total", .str "0")]

/-- `isValidCart`: the value must be a truthy object with an array `items`
and a numeric `item_count` (an array fails, having neither string key). -/
def isValidCart (cart : Json) : Bool :=
  match cart with
  | .obj fs =>
    (match fs.lookup "items" with | some (.arr _) => true | _ => false) &&
    (match fs.lookup "item_count" with | some (.num _) => true | _ => false)
  | _ => false

/-- `!data || typeof data !== 'object'` on a possibly-absent response
payload: only a parsed-JSON object or array passes (null is falsy, other
primitives and raw text bodies are not of type `'object'`). -/
def dataAsObject : Option RespData → Option Json
  | some (.jsonData (.obj fs)) => some (.obj fs)
  | some (.jsonData (.arr xs)) => some (.arr xs)
  | _ => none

/-- The own enumerable string-keyed pairs JavaScript object spread takes
from a value: an object contributes its fields, an array and a string
contribute index keys, other primitives contribute nothing. -/
def jsSpreadPairs : Json → List (String × Json)
  | .obj fs => fs
  | .arr xs => xs.enum.map (fun p => (toString p.1, p.2))
  | .str s => s.data.enum.map (fun p => (toString p.1, .str (String.singleton p.2)))
  | _ => []

/-- `\x7b ...base, ...extra \x7d`: spread the base pairs, then lay each pair
of `extra` over them with JS update semantics. -/
def jsSpreadMerge (base extra : Json) : Json :=
  .obj ((jsSpreadPairs extra).foldl (fun acc p => objInsert acc p.1 p.2) (jsSpreadPairs base))

/-- `'status' in data && data.status === 'error'`: the payload carries an
embedded server-level error marker. -/
def statusIsError (data : Json) : Bool :=
  match jsonGet data "status" with
  | some v => Json.beq v (.str "error")
  | none => false

/-- `getCartFromResult` from the source: reject transport errors, non-object
payloads, embedded `status: 'error'` markers and missing/null `cart` keys
(returning `none` = "store write suppressed"); a malformed but present cart
is merged over `DEFAULT_CART`; a valid cart is returned verbatim. -/
def getCartFromResult (actionName : String) (result : ActionResponse) : Option Json :=
  if result.status ≠ "ok" then none
  else
    match dataAsObject result.data with
    | none => none
    | some data =>
      if statusIsError data then none
      else
        match jsonGet data "cart" with
        | none => none
        | some .null => none
        | some cart =>
          if isValidCart cart then some cart
          else some (jsSpreadMerge DEFAULT_CART cart)

/-- `JSON.parse(JSON.stringify(cart))` on an already-parsed JSON value: a
deep structural copy, which on immutable model values is the value itself
(the `clone` option only breaks aliasing, which the model has none of). -/
def jsonDeepClone (j : Json) : Json := j

/-- `updateCartStore`: compute the validated cart and, when present, commit
it (cloned when requested) as the new `$cart` value; otherwise keep the
current store value. -/
def updateCartStore (actionName : String) (result : ActionResponse)
    (clone : Bool) (current : Json) : Json :=
  match getCartFromResult actionName result with
  | none => current
  | some cart => if clone then jsonDeepClone cart else cart

/-- The deterministic network as the facade sees it: the settled
`ActionResult` of `callAction` for a given action name and argument object
(the transport itself never rejects; see `callAction`). -/
structure FacadeEnv where
  respond : String → Json → ActionResponse

/-- Facade-visible mutable state: the `$cart` store value (as the runtime
JSON object it holds) and the loading counter/flag pair. -/
structure FacadeState where
  cart : Json
  loading : LoadingState

/-- Outcome of one facade operation: the settled value (`Except.error` is a
synchronous throw / rejected promise), the final state, and the network
actions issued, in order, as (action name, argument object) pairs. -/
structure FacadeOutcome where
  result : Except String ActionResponse
  state : FacadeState
  calls : List (String × Json)

/-- `removeFromCart(cartItemKey)`: enter the loading state, issue the
`removeFromCart` action with `\x7b cart_item_key \x7d`, funnel the response
through `updateCartStore`, and leave the loading state (the `finally`
block). -/
def removeFromCart (env : FacadeEnv) (s : FacadeState) (cartItemKey : String) : FacadeOutcome :=
  let s1 : FacadeState := { s with loading := incrementLoadingState s.loading }
  let argsJson : Json := .obj [("cart_item_key", .str cartItemKey)]
  let result := env.respond "removeFromCart" argsJson
  let s2 : FacadeState := { s1 with cart := updateCartStore "removeFromCart" result false s1.cart }
  let s3 : FacadeState := { s2 with loading := decrementLoadingState s2.loading }
  { result := .ok result, state := s3, calls := [("removeFromCart", argsJson)] }

/-- `updateQuantity(cartItemKey, quantity)`: a negative quantity throws
before any state change or network call; a zero quantity delegates to
`removeFromCart`; a positive quantity issues the `updateCartItemQuantity`
action inside the loading bracket. -/
def updateQuantity (env : FacadeEnv) (s : FacadeState) (cartItemKey : String) (quantity : Int) :
    FacadeOutcome :=
  if quantity < 0 then
    { result := .error s!"Invalid quantity: {quantity}. Quantity must be positive. Use removeFromCart() to remove items.",
      state := s, calls := [] }
  else if quantity = 0 then
    removeFromCart env s cartItemKey
  else
    let s1 : FacadeState := { s with loading := incrementLoadingState s.loading }
    let argsJson : Json := .obj [("cart_item_key", .str cartItemKey), ("quantity", .num quantity)]
    let result := env.respond "updateCartItemQuantity" argsJson
    let s2 : FacadeState := { s1 with cart := updateCartStore "updateQuantity" result false s1.cart }
    let s3 : FacadeState := { s2 with loading := decrementLoadingState s2.loading }
    { result := .ok result, state := s3, calls := [("updateCartItemQuantity", argsJson)] }

/-! ## Price formatter (`formatPrice` in `packages/woo/src/cart.ts`)

JS `number` amounts are modelled as rationals; `toFixed(d)` is modelled as
rounding to the nearest multiple of `10^(-d)` (half away from zero on the
non-negative values it is applied to, after `Math.abs`) and rendering with
exactly `d` fractional digits. -/

/-- The decimal digit character for `n < 10`. -/
def digitChar (n : ℕ) : Char := Char.ofNat (48 + n)

/-- Fuel-driven base-10 rendering helper (most significant digit first);
`fuel` bounds the recursion depth so the definition reduces in the kernel. -/
def natDigitsAux : ℕ → ℕ → List Char
  | 0, _ => []
  | fuel + 1, n =>
    if n < 10 then [digitChar n]
    else natDigitsAux fuel (n / 10) ++ [digitChar (n % 10)]

/-- Decimal digits of a natural number, as JS renders integers. -/
def natDigits (n : ℕ) : List Char := natDigitsAux (n + 1) n

/-- The integer `round(q * 10^d)` (half away from zero for `q ≥ 0`): the
scaled significand underlying `q.toFixed(d)`. -/
def fixedScaled (q : ℚ) (d : ℕ) : ℤ := ⌊q * (10:ℚ)^d + 1/2⌋

/-- Digits of the integer part of `q.toFixed(d)`. -/
def fixedIntDigits (q : ℚ) (d : ℕ) : List Char :=
  natDigits ((fixedScaled q d).toNat / 10 ^ d)

/-- The `d` digits of the fractional part of `q.toFixed(d)` (zero-padded on
the left). -/
def fixedFracDigits (q : ℚ) (d : ℕ) : List Char :=
  let ds := natDigits ((fixedScaled q d).toNat % 10 ^ d)
  List.replicate (d - ds.length) '0' ++ ds

/-- `q.toFixed(d)` for `q ≥ 0`: integer digits, then a dot and `d`
fractional digits when `d > 0`. -/
def toFixedList (q : ℚ) (d : ℕ) : List Char :=
  if d = 0 then fixedIntDigits q d
  else fixedIntDigits q d ++ '.' :: fixedFracDigits q d

/-- `.replace('.', decimalSeparator)` — a string pattern replaces only the
first occurrence, and `toFixed` output contains at most one dot. -/
def replaceFirstDot (dsep : List Char) : List Char → List Char
  | [] => []
  | c :: rest => if c = '.' then dsep ++ rest else c :: replaceFirstDot dsep rest

/-- JS regex word character `\w = [A-Za-z0-9_]`, for the `\B` assertion. -/
def isWordCharJs (c : Char) : Bool :=
  c.isDigit || ('a' ≤ c && c ≤ 'z') || ('A' ≤ c && c ≤ 'Z') || c == '_'

/-- `true` when the list is empty or starts with a non-digit: the `(?!\d)`
negative lookahead at the end of a digit-group run. -/
def headNotDigit : List Char → Bool
  | [] => true
  | c :: _ => !c.isDigit

/-- The lookahead `(?=(\d{3})+(?!\d))` at a position: some positive number
of 3-digit groups follows, with no further digit after them. -/
def groupsAhead : List Char → Bool
  | a :: b :: c :: rest =>
    a.isDigit && b.isDigit && c.isDigit && (headNotDigit rest || groupsAhead rest)
  | _ => false

/-- Global replacement of the zero-width regex `/\B(?=(\d{3})+(?!\d))/g` by
the thousand separator: walk the string carrying the word-ness of the
previous character (`prevWord`, `false` at the start of input); at each
position, `\B` holds when the previous and current characters agree on
word-ness, and the separator is inserted when the lookahead also matches. -/
def groupGo (sep : List Char) (prevWord : Bool) : List Char → List Char
  | [] => []
  | c :: rest =>
    (if (prevWord == isWordCharJs c) && groupsAhead (c :: rest) then sep else []) ++
      c :: groupGo sep (isWordCharJs c) rest

/-- `formattedNumber` of the source: `Math.abs(price).toFixed(d)`, decimal
separator substituted, then `/\B(?=(\d{3})+(?!\d))/g` replaced by the
thousand separator. -/
def formattedNumber (price : ℚ) (d : ℕ) (dsep tsep : List Char) : List Char :=
  groupGo tsep false (replaceFirstDot dsep (toFixedList |price| d))

/-- The shop-configuration fields `formatPrice` reads; the store starts
empty, so each is optional until `getInitialState` commits a config. -/
structure WooCommerceConfig where
  price_decimals : Option ℕ
  decimal_separator : Option String
  thousand_separator : Option String
  currency_symbol : Option String
  currency_position : Option String

/-- `formatPrice(price)` from the source, with the current `$shopConfig`
snapshot passed explicitly: fail fast when any required field is undefined;
otherwise format the absolute value and re-attach the sign, placing the
currency symbol by `currency_position` (unknown positions fall back to the
symbol-before shape). -/
def formatPrice (price : ℚ) (config : WooCommerceConfig) : Except String String :=
  match config.price_decimals, config.decimal_separator, config.thousand_separator,
      config.currency_symbol, config.currency_position with
  | some d, some dsep, some tsep, some sym, some pos =>
    let fn : String := String.mk (formattedNumber price d dsep.data tsep.data)
    let sign : String := if price < 0 then "-" else ""
    Except.ok (match pos with
      | "left" => sign ++ sym ++ fn
      | "right" => sign ++ fn ++ sym
      | "left_space" => sign ++ sym ++ " " ++ fn
      | "right_space" => sign ++ fn ++ " " ++ sym
      | _ => sign ++ sym ++ fn)
  | _, _, _, _, _ =>
    Except.error "[Fern Woo] Shop config not initialized. Call initializeCart() before using formatPrice()"

/-- Projection of the form entries out of an `args` value (used to observe
the mutation of a `FormData` argument). -/
def formEntriesOf : ActionArgs → Option (List (String × String))
  | .formData fd => some fd
  | _ => none

/-! ## Theorems -/

/-- Every exit of the `catch` block carries `status: 'error'`. -/
theorem catchHandler_status (t : Int) (e : JsErr) : (catchHandler t e).status = "error" := by
  unfold catchHandler
  split <;> rfl

/-- Claim C1: for every action name, args value, nonce string and timeout
option, and for every behaviour of the environment (network success,
network rejection, non-2xx HTTP status, timeout, non-browser context),
`callAction` resolves to a value whose `status` field is either `'ok'` or
`'error'`.  The model of `callAction` is a total function — every
exceptional path of the source is routed through `catchHandler` by the
`try`/`catch` — so the call never throws synchronously and never rejects. -/
theorem callAction_resolves_ok_or_error (action : String) (args : ActionArgs) (nonce : String)
    (timeoutOpt : Option Int) (env : Env) :
    (callAction action args nonce timeoutOpt env).result.status = "ok" ∨
    (callAction action args nonce timeoutOpt env).result.status = "error" := by
  unfold callAction
  split
  · exact Or.inr rfl
  split
  · exact Or.inr rfl
  split
  · exact Or.inr (catchHandler_status _ _)
  · exact Or.inr (catchHandler_status _ _)
  split
  · exact Or.inr (catchHandler_status _ _)
  split
  · split
    · exact Or.inl rfl
    · exact Or.inr (catchHandler_status _ _)
  · exact Or.inl rfl

/-- Claim C2: with `options.timeout = t > 0`, when the fetch does not settle
before the timer fires (the timer aborts the request and the fetch rejects
with `AbortError`), the call resolves to
`\x7b status: 'error', error: \x7b message: 'Request timeout after ' + t + 'ms', status: 408 \x7d \x7d`;
and on every completion path of every call — success, error or timeout —
an armed timer is cleared (`clearTimeout` runs on the success path and in
the `catch` block). -/
theorem callAction_timeout_result (action : String) (args : ActionArgs) (nonce : String)
    (t : Int) (env : Env) (hb : env.browser = true)
    (ho : env.hrefOrigin = env.windowOrigin) (hh : env.fetchBehavior = .hangs)
    (ht : 0 < t) :
    (callAction action args nonce (some t) env).result =
      { status := "error", data := none,
        error := some { message := s!"Request timeout after {t}ms", status := some 408 } } ∧
    (∀ (a2 : String) (g2 : ActionArgs) (n2 : String) (o2 : Option Int) (e2 : Env),
      (callAction a2 g2 n2 o2 e2).timerArmed = true →
      (callAction a2 g2 n2 o2 e2).timerCleared = true) := by
  constructor
  · have hne : ¬ (t = 0) := by omega
    simp only [callAction, hb, hh, ho, jsOrTimeout, catchHandler, abortErr]
    simp [hne]
  · intro a2 g2 n2 o2 e2
    unfold callAction
    split
    · intro h; exact absurd h (by simp)
    split
    · intro h; exact absurd h (by simp)
    intro _
    split
    · rfl
    · rfl
    · split
      · rfl
      · split
        · split <;> rfl
        · rfl

/-- Witness for C2: a concrete hanging call with a 100 ms timeout resolves
to the 408 timeout result, and the armed timer of that call is cleared. -/
theorem callAction_timeout_result_witness :
    (callAction "a" (ActionArgs.plainObj []) "" (some 100)
        ⟨true, "https://shop.example/p", "https://shop.example", "https://shop.example", FetchBehavior.hangs⟩).result =
      { status := "error", data := none,
        error := some { message := "Request timeout after 100ms", status := some 408 } } ∧
    (callAction "a" (ActionArgs.plainObj []) "" (some 100)
        ⟨true, "https://shop.example/p", "https://shop.example", "https://shop.example", FetchBehavior.hangs⟩).timerCleared = true := by
  have h := callAction_timeout_result "a" (ActionArgs.plainObj []) "" 100
    ⟨true, "https://shop.example/p", "https://shop.example", "https://shop.example", FetchBehavior.hangs⟩
    rfl rfl rfl (by decide)
  exact ⟨h.1, h.2 "a" (ActionArgs.plainObj []) "" (some 100)
    ⟨true, "https://shop.example/p", "https://shop.example", "https://shop.example", FetchBehavior.hangs⟩ rfl⟩

/-- Claim C3: in every browser environment whose request target origin (the
origin of `window.location.href`) differs from `window.origin`, `callAction`
resolves to `status: 'error'` with `error.status = 403` and the
cross-origin message, and no fetch is issued. -/
theorem callAction_cross_origin_blocked (action : String) (args : ActionArgs) (nonce : String)
    (timeoutOpt : Option Int) (env : Env) (hb : env.browser = true)
    (ho : env.hrefOrigin ≠ env.windowOrigin) :
    (callAction action args nonce timeoutOpt env).result.status = "error" ∧
    (callAction action args nonce timeoutOpt env).result.error =
      some { message := "Cross-origin action requests not allowed", status := some 403 } ∧
    (callAction action args nonce timeoutOpt env).fetchCalled = false := by
  simp [callAction, hb, ho]

/-- Witness for C3: a concrete sandboxed-iframe-style environment (page URL
origin `https://shop.example`, `window.origin` the string `null`) yields the
403 error result and no network request. -/
theorem callAction_cross_origin_blocked_witness :
    (callAction "addToCart" (ActionArgs.plainObj [("product_id", Json.num 1)]) "n" none
        ⟨true, "https://shop.example/p", "https://shop.example", "null", FetchBehavior.hangs⟩).result.status = "error" ∧
    (callAction "addToCart" (ActionArgs.plainObj [("product_id", Json.num 1)]) "n" none
        ⟨true, "https://shop.example/p", "https://shop.example", "null", FetchBehavior.hangs⟩).result.error =
      some { message := "Cross-origin action requests not allowed", status := some 403 } ∧
    (callAction "addToCart" (ActionArgs.plainObj [("product_id", Json.num 1)]) "n" none
        ⟨true, "https://shop.example/p", "https://shop.example", "null", FetchBehavior.hangs⟩).fetchCalled = false :=
  callAction_cross_origin_blocked "addToCart" (ActionArgs.plainObj [("product_id", Json.num 1)]) "n" none
    ⟨true, "https://shop.example/p", "https://shop.example", "null", FetchBehavior.hangs⟩
    rfl (by decide)

/-- Counterexample to C7 as stated: with the empty nonce (a legal value —
`nonce` defaults to `''`), the body does NOT contain a `_nonce` field inside
`args`: `nonce ? \x7b ...args, _nonce: nonce \x7d : args` keeps `args`
unchanged, while the claim says a `_nonce` field is appended for every
nonce string.  At `action = "a"`, `args = \x7b\x7d`, `nonce = ""` the body
sent differs from the claimed serialization. -/
theorem callAction_json_body_counterexample :
    (callAction "a" (ActionArgs.plainObj []) "" none
        ⟨true, "https://shop.example/p", "https://shop.example", "https://shop.example", FetchBehavior.hangs⟩).fetchBody ≠
      some (Body.jsonStr (Json.stringify (Json.obj
        [("action", Json.str "a"),
         ("args", Json.obj (objInsert [] "_nonce" (Json.str ""))),
         ("_nonce", Json.str "")]))) := by
  decide

/-- Claim C7, amended: for a plain mapping `args`, `callAction` POSTs to the
current page URL with headers `Content-Type: application/json` and
`X-Fern-Action` (empty value), and the body is the JSON serialization of
`\x7b action, args: argsWithNonce, _nonce: nonce \x7d` — where
`argsWithNonce` is a shallow copy of `args` with the `_nonce` field set
when the nonce is non-empty, and `args` unchanged (no `_nonce` field
appended) when the nonce is the empty string. -/
theorem callAction_json_body (action : String) (fields : List (String × Json)) (nonce : String)
    (timeoutOpt : Option Int) (env : Env) (hb : env.browser = true)
    (ho : env.hrefOrigin = env.windowOrigin) :
    (callAction action (.plainObj fields) nonce timeoutOpt env).fetchCalled = true ∧
    (callAction action (.plainObj fields) nonce timeoutOpt env).fetchUrl = some env.href ∧
    (callAction action (.plainObj fields) nonce timeoutOpt env).fetchMethod = some "POST" ∧
    (callAction action (.plainObj fields) nonce timeoutOpt env).fetchHeaders =
      [("Content-Type", "application/json"), ("X-Fern-Action", "")] ∧
    (callAction action (.plainObj fields) nonce timeoutOpt env).fetchBody =
      some (Body.jsonStr (Json.stringify (Json.obj
        [("action", Json.str action),
         ("args", Json.obj (if nonce = "" then fields else objInsert fields "_nonce" (Json.str nonce))),
         ("_nonce", Json.str nonce)]))) := by
  unfold callAction
  rw [hb, ho]
  simp only [if_neg (by simp : ¬(true = false)), if_neg (by simp : ¬(env.windowOrigin ≠ env.windowOrigin))]
  have henc : encodeArgs action (.plainObj fields) nonce =
      (Body.jsonStr (Json.stringify (Json.obj
        [("action", Json.str action),
         ("args", Json.obj (if nonce = "" then fields else objInsert fields "_nonce" (Json.str nonce))),
         ("_nonce", Json.str nonce)])),
       [("Content-Type", "application/json")], ActionArgs.plainObj fields) := by
    unfold encodeArgs
    by_cases hn : nonce = "" <;> simp [hn]
  simp [henc]

/-- Witness for the amended C7: a concrete call with a non-empty nonce
issues exactly the claimed POST request. -/
theorem callAction_json_body_witness :
    (callAction "addToCart" (.plainObj [("product_id", Json.num 7)]) "NN" none
        ⟨true, "https://shop.example/p", "https://shop.example", "https://shop.example", FetchBehavior.hangs⟩).fetchCalled = true ∧
    (callAction "addToCart" (.plainObj [("product_id", Json.num 7)]) "NN" none
        ⟨true, "https://shop.example/p", "https://shop.example", "https://shop.example", FetchBehavior.hangs⟩).fetchUrl = some "https://shop.example/p" ∧
    (callAction "addToCart" (.plainObj [("product_id", Json.num 7)]) "NN" none
        ⟨true, "https://shop.example/p", "https://shop.example", "https://shop.example", FetchBehavior.hangs⟩).fetchMethod = some "POST" ∧
    (callAction "addToCart" (.plainObj [("product_id", Json.num 7)]) "NN" none
        ⟨true, "https://shop.example/p", "https://shop.example", "https://shop.example", FetchBehavior.hangs⟩).fetchHeaders =
      [("Content-Type", "application/json"), ("X-Fern-Action", "")] ∧
    (callAction "addToCart" (.plainObj [("product_id", Json.num 7)]) "NN" none
        ⟨true, "https://shop.example/p", "https://shop.example", "https://shop.example", FetchBehavior.hangs⟩).fetchBody =
      some (Body.jsonStr (Json.stringify (Json.obj
        [("action", Json.str "addToCart"),
         ("args", Json.obj (if "NN" = "" then [("product_id", Json.num 7)]
            else objInsert [("product_id", Json.num 7)] "_nonce" (Json.str "NN"))),
         ("_nonce", Json.str "NN")]))) :=
  callAction_json_body "addToCart" [("product_id", Json.num 7)] "NN" none
    ⟨true, "https://shop.example/p", "https://shop.example", "https://shop.example", FetchBehavior.hangs⟩
    rfl rfl

/-- Counterexample to C10 as stated: a `FormData` args value is mutated by
the call — `args.append('action', ...)` and the nonce appends act on the
caller's object — so the caller's `args` is not left unchanged.  Starting
from an empty `FormData`, after the call it holds three entries. -/
theorem callAction_mutates_formdata_counterexample :
    (callAction "a" (ActionArgs.formData []) "n" none
        ⟨true, "https://shop.example/p", "https://shop.example", "https://shop.example", FetchBehavior.hangs⟩).finalArgs ≠
      ActionArgs.formData [] := by
  intro h
  have h2 : formEntriesOf ((callAction "a" (ActionArgs.formData []) "n" none
      ⟨true, "https://shop.example/p", "https://shop.example", "https://shop.example", FetchBehavior.hangs⟩).finalArgs) =
      some [("action", "a"), ("_nonce", "n"), ("args[_nonce]", "n")] := rfl
  rw [h] at h2
  exact absurd h2 (by decide)

/-- Claim C10, amended: past the guards, `callAction` has no side effect on
a plain-mapping `args` (the spread copies it), but a `FormData` args is
mutated in place: `action` is appended, and `_nonce` and `args[_nonce]` are
appended too when the nonce is non-empty.  When a guard short-circuits the
call (non-browser, cross-origin), no args value is touched. -/
theorem callAction_args_frame (action : String) (args : ActionArgs) (nonce : String)
    (timeoutOpt : Option Int) (env : Env) :
    (∀ fields, args = ActionArgs.plainObj fields →
      (callAction action args nonce timeoutOpt env).finalArgs = args) ∧
    (env.browser = true → env.hrefOrigin = env.windowOrigin →
      ∀ fd, args = ActionArgs.formData fd →
      (callAction action args nonce timeoutOpt env).finalArgs =
        ActionArgs.formData ((fd ++ [("action", action)]) ++
          (if nonce ≠ "" then [("_nonce", nonce), ("args[_nonce]", nonce)] else []))) ∧
    (env.browser = false → (callAction action args nonce timeoutOpt env).finalArgs = args) ∧
    (env.browser = true → env.hrefOrigin ≠ env.windowOrigin →
      (callAction action args nonce timeoutOpt env).finalArgs = args) := by
  refine ⟨?_, ?_, ?_, ?_⟩
  · intro fields hf
    subst hf
    unfold callAction
    split
    · rfl
    split
    · rfl
    · simp [encodeArgs]
  · intro hb ho fd hf
    subst hf
    unfold callAction
    rw [hb, ho]
    simp only [if_neg (by simp : ¬(true = false)), if_neg (by simp : ¬(env.windowOrigin ≠ env.windowOrigin))]
    by_cases hn : nonce = "" <;> simp [encodeArgs, hn]
  · intro hb
    unfold callAction
    rw [hb]
    simp
  · intro hb ho
    unfold callAction
    rw [hb, if_neg (by simp : ¬(true = false)), if_pos ho]

/-- Witness for the amended C10: a plain-mapping call leaves the caller's
args untouched, a `FormData` call past the guards appends the `action` and
nonce entries to the caller's object, and a `FormData` call stopped by the
cross-origin guard is left untouched. -/
theorem callAction_args_frame_witness :
    (callAction "a" (ActionArgs.plainObj [("x", Json.num 1)]) "n" none
        ⟨true, "https://shop.example/p", "https://shop.example", "https://shop.example", FetchBehavior.hangs⟩).finalArgs =
      ActionArgs.plainObj [("x", Json.num 1)] ∧
    (callAction "a" (ActionArgs.formData [("f", "v")]) "n" none
        ⟨true, "https://shop.example/p", "https://shop.example", "https://shop.example", FetchBehavior.hangs⟩).finalArgs =
      ActionArgs.formData (([("f", "v")] ++ [("action", "a")]) ++
        (if "n" ≠ "" then [("_nonce", "n"), ("args[_nonce]", "n")] else [])) ∧
    (callAction "a" (ActionArgs.formData [("f", "v")]) "n" none
        ⟨true, "https://shop.example/p", "https://shop.example", "null", FetchBehavior.hangs⟩).finalArgs =
      ActionArgs.formData [("f", "v")] := by
  refine ⟨?_, ?_, ?_⟩
  · exact (callAction_args_frame "a" (ActionArgs.plainObj [("x", Json.num 1)]) "n" none
      ⟨true, "https://shop.example/p", "https://shop.example", "https://shop.example", FetchBehavior.hangs⟩).1
      [("x", Json.num 1)] rfl
  · exact (callAction_args_frame "a" (ActionArgs.formData [("f", "v")]) "n" none
      ⟨true, "https://shop.example/p", "https://shop.example", "https://shop.example", FetchBehavior.hangs⟩).2.1
      rfl rfl [("f", "v")] rfl
  · exact (callAction_args_frame "a" (ActionArgs.formData [("f", "v")]) "n" none
      ⟨true, "https://shop.example/p", "https://shop.example", "null", FetchBehavior.hangs⟩).2.2.2
      rfl (by decide)

/-- Claim C5: for every cart item key, deterministic network environment and
facade state, `updateQuantity(key, 0)` is exactly `removeFromCart(key)` —
same returned result, same effect on the cart store and loading counter —
its only network action is `removeFromCart` with `cart_item_key = key`, and
the `updateCartItemQuantity` action is never issued. -/
theorem updateQuantity_zero_is_remove (env : FacadeEnv) (s : FacadeState) (key : String) :
    updateQuantity env s key 0 = removeFromCart env s key ∧
    (updateQuantity env s key 0).calls =
      [("removeFromCart", Json.obj [("cart_item_key", Json.str key)])] ∧
    ((updateQuantity env s key 0).calls.all
      (fun c => c.1 != "updateCartItemQuantity")) = true := by
  have h0 : updateQuantity env s key 0 = removeFromCart env s key := by
    unfold updateQuantity
    rw [if_neg (by omega : ¬ ((0 : Int) < 0)), if_pos rfl]
  refine ⟨h0, ?_, ?_⟩
  · rw [h0]; rfl
  · rw [h0]; rfl

/-- Claim C6: for every negative quantity, `updateQuantity` fails
synchronously with the invalid-quantity error before any network
interaction: no action is issued and the facade state — loading counter and
cart store alike — is unchanged. -/
theorem updateQuantity_negative_throws (env : FacadeEnv) (s : FacadeState) (key : String)
    (q : Int) (hq : q < 0) :
    updateQuantity env s key q =
      { result := Except.error
          s!"Invalid quantity: {q}. Quantity must be positive. Use removeFromCart() to remove items.",
        state := s, calls := [] } := by
  unfold updateQuantity
  rw [if_pos hq]

/-- Witness for C6: `updateQuantity(key, -1)` on a concrete state throws the
invalid-quantity error, issues no call and leaves the state intact. -/
theorem updateQuantity_negative_throws_witness :
    updateQuantity ⟨fun _ _ => { status := "error", data := none, error := none }⟩
        ⟨DEFAULT_CART, loadingStart⟩ "a123b456c789" (-1) =
      { result := Except.error
          "Invalid quantity: -1. Quantity must be positive. Use removeFromCart() to remove items.",
        state := ⟨DEFAULT_CART, loadingStart⟩, calls := [] } := by
  have h := updateQuantity_negative_throws
    ⟨fun _ _ => { status := "error", data := none, error := none }⟩
    ⟨DEFAULT_CART, loadingStart⟩ "a123b456c789" (-1) (by decide)
  exact h

/-- The loading-store invariant: the counter is never negative and the
`$cartIsLoading` flag is set exactly when the counter is positive. -/
def LoadingInv (s : LoadingState) : Prop :=
  0 ≤ s.loadingOperationsCount ∧ (s.cartIsLoading = true ↔ 0 < s.loadingOperationsCount)

theorem loadingInv_start : LoadingInv loadingStart := by
  constructor
  · simp [loadingStart]
  · simp [loadingStart]

theorem loadingInv_inc (s : LoadingState) (h : LoadingInv s) :
    LoadingInv (incrementLoadingState s) := by
  obtain ⟨h1, h2⟩ := h
  unfold incrementLoadingState
  by_cases hc : s.loadingOperationsCount + 1 = 1
  · simp only [LoadingInv, hc, if_pos rfl]
    constructor
    · omega
    · simp
  · simp only [LoadingInv, if_neg hc]
    constructor
    · omega
    · constructor
      · intro _; omega
      · intro _; exact h2.mpr (by omega)

theorem loadingInv_dec (s : LoadingState) (h : LoadingInv s) :
    LoadingInv (decrementLoadingState s) := by
  obtain ⟨h1, h2⟩ := h
  unfold decrementLoadingState
  by_cases hc : s.loadingOperationsCount - 1 ≤ 0
  · simp only [LoadingInv, if_pos hc]
    constructor
    · omega
    · simp
  · simp only [LoadingInv, if_neg hc]
    constructor
    · omega
    · constructor
      · intro _; omega
      · intro _; exact h2.mpr (by omega)

theorem loadingInv_run (ops : List LoadOp) : ∀ s : LoadingState, LoadingInv s →
    LoadingInv (runLoadOps s ops) := by
  induction ops with
  | nil => intro s h; exact h
  | cons op rest ih =>
    intro s h
    cases op with
    | inc => exact ih _ (loadingInv_inc s h)
    | dec => exact ih _ (loadingInv_dec s h)

theorem incrementLoadingState_count (s : LoadingState) :
    (incrementLoadingState s).loadingOperationsCount = s.loadingOperationsCount + 1 := rfl

theorem decrementLoadingState_count (s : LoadingState) (h : 1 ≤ s.loadingOperationsCount) :
    (decrementLoadingState s).loadingOperationsCount = s.loadingOperationsCount - 1 := by
  by_cases hc : s.loadingOperationsCount - 1 ≤ 0
  · simp [decrementLoadingState, hc]
    omega
  · simp [decrementLoadingState, hc]

/-- Running an admissible trace adds the increment/decrement balance to the
counter; no clamping ever fires because decrements never outrun the
increments. -/
theorem runLoadOps_count (ops : List LoadOp) : ∀ s : LoadingState, LoadingInv s →
    AdmissibleTrace s.loadingOperationsCount ops = true →
    (runLoadOps s ops).loadingOperationsCount =
      s.loadingOperationsCount + incCount ops - decCount ops := by
  induction ops with
  | nil =>
    intro s _ _
    simp [runLoadOps, incCount, decCount]
  | cons op rest ih =>
    intro s hinv hadm
    cases op with
    | inc =>
      have hc := incrementLoadingState_count s
      have hadm2 : AdmissibleTrace (incrementLoadingState s).loadingOperationsCount rest = true := by
        rw [hc]; exact hadm
      have := ih (incrementLoadingState s) (loadingInv_inc s hinv) hadm2
      simp only [runLoadOps, incCount, decCount]
      rw [this, hc]
      ring
    | dec =>
      have hk : 1 ≤ s.loadingOperationsCount ∧
          AdmissibleTrace (s.loadingOperationsCount - 1) rest = true := by
        have h := hadm
        simp only [AdmissibleTrace, Bool.and_eq_true, decide_eq_true_eq] at h
        exact h
      have hc := decrementLoadingState_count s hk.1
      have hadm2 : AdmissibleTrace (decrementLoadingState s).loadingOperationsCount rest = true := by
        rw [hc]; exact hk.2
      have := ih (decrementLoadingState s) (loadingInv_dec s hinv) hadm2
      simp only [runLoadOps, incCount, decCount]
      rw [this, hc]
      ring

theorem loadingState_ext (s : LoadingState) (h1 : s.loadingOperationsCount = 0)
    (h2 : s.cartIsLoading = false) : s = loadingStart := by
  cases s
  simp_all [loadingStart]

/-- Claim C4: the loading counter never goes negative and `$cartIsLoading`
is true exactly when the counter is positive — at every prefix of every
event trace from the initial state — and after any admissible interleaving
of concurrent facade operations in which every operation has settled
(increments and decrements balance, as each operation's `finally` block
guarantees), the counter is exactly 0 and the flag is false. -/
theorem loading_counter_invariant (ops : List LoadOp)
    (hAdm : AdmissibleTrace 0 ops = true) (hBal : incCount ops = decCount ops) :
    (∀ n : ℕ,
      0 ≤ (runLoadOps loadingStart (ops.take n)).loadingOperationsCount ∧
      ((runLoadOps loadingStart (ops.take n)).cartIsLoading = true ↔
        0 < (runLoadOps loadingStart (ops.take n)).loadingOperationsCount)) ∧
    runLoadOps loadingStart ops = loadingStart := by
  constructor
  · intro n
    exact loadingInv_run (ops.take n) loadingStart loadingInv_start
  · have hcount := runLoadOps_count ops loadingStart loadingInv_start
      (by simpa [loadingStart] using hAdm)
    have hzero : (runLoadOps loadingStart ops).loadingOperationsCount = 0 := by
      rw [hcount]
      simp [loadingStart]
      omega
    have hinv := loadingInv_run ops loadingStart loadingInv_start
    have hflag : (runLoadOps loadingStart ops).cartIsLoading = false := by
      cases hfl : (runLoadOps loadingStart ops).cartIsLoading
      · rfl
      · have := hinv.2.mp hfl
        omega
    exact loadingState_ext _ hzero hflag

/-- Witness for C4: the interleaving (op A enters, op B enters, B settles,
op C enters, A settles, C settles) returns the store to its initial state:
counter 0, flag false. -/
theorem loading_counter_invariant_witness :
    runLoadOps loadingStart
        [LoadOp.inc, LoadOp.inc, LoadOp.dec, LoadOp.inc, LoadOp.dec, LoadOp.dec] = loadingStart :=
  (loading_counter_invariant
    [LoadOp.inc, LoadOp.inc, LoadOp.dec, LoadOp.inc, LoadOp.dec, LoadOp.dec]
    (by decide) (by decide)).2

/-- Claim C9: with `price_decimals = 2`, decimal separator `.`, thousand
separator `,`, symbol `$` and position `left`, `formatPrice(1234.56)` is
`"$1,234.56"` and `formatPrice(-10)` is `"-$10.00"` — the minus sign
re-attached before the symbol. -/
theorem formatPrice_examples :
    formatPrice (123456/100 : ℚ) ⟨some 2, some ".", some ",", some "$", some "left"⟩ =
      Except.ok "$1,234.56" ∧
    formatPrice (-10 : ℚ) ⟨some 2, some ".", some ",", some "$", some "left"⟩ =
      Except.ok "-$10.00" := by
  have habs1 : |(123456/100 : ℚ)| = 123456/100 := abs_of_nonneg (by norm_num)
  have h1 : fixedScaled |(123456/100 : ℚ)| 2 = 123456 := by
    rw [habs1]; norm_num [fixedScaled]
  have habs2 : |(-10 : ℚ)| = 10 := by
    rw [abs_of_nonpos (by norm_num)]; norm_num
  have h2 : fixedScaled |(-10 : ℚ)| 2 = 1000 := by
    rw [habs2]; norm_num [fixedScaled]
  constructor
  · simp only [formatPrice, formattedNumber, toFixedList, fixedIntDigits, fixedFracDigits, h1]
    rw [if_neg (by norm_num : ¬ (123456/100 : ℚ) < 0)]
    exact congrArg Except.ok (by decide)
  · simp only [formatPrice, formattedNumber, toFixedList, fixedIntDigits, fixedFracDigits, h2]
    rw [if_pos (by norm_num : (-10 : ℚ) < 0)]
    exact congrArg Except.ok (by decide)

/-! ### Digit-grouping lemmas for the thousand-separator regex -/

theorem digit_isWord (c : Char) (h : c.isDigit = true) : isWordCharJs c = true := by
  simp [isWordCharJs, h]

theorem nonword_notDigit (c : Char) (h : isWordCharJs c = false) : c.isDigit = false := by
  by_contra hd
  simp only [Bool.not_eq_false] at hd
  rw [digit_isWord c hd] at h
  exact absurd h (by simp)

theorem groupsAhead_head_not_digit (c : Char) (xs : List Char) (h : c.isDigit = false) :
    groupsAhead (c :: xs) = false := by
  rcases xs with _ | ⟨b, _ | ⟨d, rest⟩⟩ <;> simp [groupsAhead, h]

theorem groupsAhead_of_headNotDigit (t : List Char) (h : headNotDigit t = true) :
    groupsAhead t = false := by
  rcases t with _ | ⟨c, ts⟩
  · simp [groupsAhead]
  · exact groupsAhead_head_not_digit c ts (by simpa [headNotDigit] using h)

theorem groupsAhead_append_aux : ∀ (n : ℕ) (cs t : List Char), cs.length ≤ n →
    (∀ c ∈ cs, c.isDigit = true) → headNotDigit t = true →
    groupsAhead (cs ++ t) = groupsAhead cs := by
  intro n
  induction n with
  | zero =>
    intro cs t hlen _ ht
    have hcs : cs = [] := List.eq_nil_of_length_eq_zero (by omega)
    subst hcs
    simp only [List.nil_append]
    rw [groupsAhead_of_headNotDigit t ht]
    simp [groupsAhead]
  | succ n ih =>
    intro cs t hlen hdig ht
    rcases cs with _ | ⟨a, _ | ⟨b, _ | ⟨c, rest⟩⟩⟩
    · simp only [List.nil_append]
      rw [groupsAhead_of_headNotDigit t ht]
      simp [groupsAhead]
    · rcases t with _ | ⟨x, ts⟩
      · simp
      · have hx : x.isDigit = false := by simpa [headNotDigit] using ht
        rcases ts with _ | ⟨y, ys⟩ <;> simp [groupsAhead, hx]
    · rcases t with _ | ⟨x, ts⟩
      · simp
      · have hx : x.isDigit = false := by simpa [headNotDigit] using ht
        simp [groupsAhead, hx]
    · have hrest : ∀ x ∈ rest, x.isDigit = true := by
        intro x hx
        exact hdig x (by simp [hx])
      have hlen2 : rest.length ≤ n := by
        simp only [List.length_cons] at hlen
        omega
      have hGA : groupsAhead (rest ++ t) = groupsAhead rest := ih rest t hlen2 hrest ht
      rcases rest with _ | ⟨r, rs⟩
      · have e1 : groupsAhead ((a :: b :: c :: []) ++ t) =
            (a.isDigit && b.isDigit && c.isDigit && (headNotDigit t || groupsAhead t)) := rfl
        have e2 : groupsAhead (a :: b :: c :: []) =
            (a.isDigit && b.isDigit && c.isDigit &&
              (headNotDigit ([] : List Char) || groupsAhead ([] : List Char))) := rfl
        rw [e1, e2, ht]
        rfl
      · have e1 : groupsAhead ((a :: b :: c :: r :: rs) ++ t) =
            (a.isDigit && b.isDigit && c.isDigit &&
              (headNotDigit (r :: (rs ++ t)) || groupsAhead (r :: (rs ++ t)))) := rfl
        have e2 : groupsAhead (a :: b :: c :: r :: rs) =
            (a.isDigit && b.isDigit && c.isDigit &&
              (headNotDigit (r :: rs) || groupsAhead (r :: rs))) := rfl
        have hGA2 : groupsAhead (r :: (rs ++ t)) = groupsAhead (r :: rs) := by
          have h2 := hGA
          rwa [List.cons_append] at h2
        have hhd : headNotDigit (r :: (rs ++ t)) = headNotDigit (r :: rs) := rfl
        rw [e1, e2, hGA2, hhd]

theorem groupsAhead_append (cs t : List Char) (h1 : ∀ c ∈ cs, c.isDigit = true)
    (ht : headNotDigit t = true) : groupsAhead (cs ++ t) = groupsAhead cs :=
  groupsAhead_append_aux cs.length cs t le_rfl h1 ht

/-- At most three digits entered with a non-word predecessor are reproduced
verbatim: the first position fails `\B`, the later ones fail the lookahead. -/
theorem groupGo_short_digits (sep frac : List Char)
    (hf : ∀ c ∈ frac, c.isDigit = true) (hl : frac.length ≤ 3) :
    groupGo sep false frac = frac := by
  rcases frac with _ | ⟨a, _ | ⟨b, _ | ⟨c, _ | ⟨d, r⟩⟩⟩⟩
  · rfl
  · have ha := digit_isWord a (hf a (by simp))
    simp [groupGo, groupsAhead, ha]
  · have ha := digit_isWord a (hf a (by simp))
    have hb := digit_isWord b (hf b (by simp))
    simp [groupGo, groupsAhead, ha, hb]
  · have ha := digit_isWord a (hf a (by simp))
    have hb := digit_isWord b (hf b (by simp))
    have hc := digit_isWord c (hf c (by simp))
    simp [groupGo, groupsAhead, ha, hb, hc]
  · exfalso
    simp only [List.length_cons] at hl
    omega

/-- A non-empty run of non-word characters followed by at most three digits
is reproduced verbatim by the grouping pass, whatever preceded it. -/
theorem groupGo_tail (sep frac : List Char) (hf : ∀ c ∈ frac, c.isDigit = true)
    (hl : frac.length ≤ 3) :
    ∀ (ds : List Char) (pw : Bool), ds ≠ [] → (∀ c ∈ ds, isWordCharJs c = false) →
    groupGo sep pw (ds ++ frac) = ds ++ frac := by
  intro ds
  induction ds with
  | nil => intro pw h _; exact absurd rfl h
  | cons c ds ih =>
    intro pw _ hw
    have hcw : isWordCharJs c = false := hw c (by simp)
    have hcd : c.isDigit = false := nonword_notDigit c hcw
    have hstep : groupGo sep pw ((c :: ds) ++ frac) =
        (if (pw == isWordCharJs c) && groupsAhead (c :: (ds ++ frac)) then sep else []) ++
          c :: groupGo sep (isWordCharJs c) (ds ++ frac) := rfl
    rw [hstep, groupsAhead_head_not_digit c (ds ++ frac) hcd]
    simp only [Bool.and_false]
    rw [if_neg (by simp)]
    simp only [List.nil_append, hcw, List.cons_append]
    rcases ds with _ | ⟨d2, ds2⟩
    · rw [List.nil_append, groupGo_short_digits sep frac hf hl]
    · rw [ih false (by simp) (fun x hx => hw x (by simp [hx]))]

/-- Grouping a digit run followed by a tail that the pass reproduces
verbatim and that starts with a non-digit is the grouping of the digit run
with the tail appended unchanged: the lookahead cannot see past the tail's
first character. -/
theorem groupGo_digits_prefix (sep t : List Char) (ht : headNotDigit t = true)
    (htid : ∀ pw2 : Bool, groupGo sep pw2 t = t) :
    ∀ (ints : List Char) (pw : Bool), (∀ c ∈ ints, c.isDigit = true) →
    groupGo sep pw (ints ++ t) = groupGo sep pw ints ++ t := by
  intro ints
  induction ints with
  | nil =>
    intro pw _
    simp only [List.nil_append, groupGo]
    exact htid pw
  | cons a ints ih =>
    intro pw hd
    have hGA : groupsAhead (a :: (ints ++ t)) = groupsAhead (a :: ints) := by
      have h2 := groupsAhead_append (a :: ints) t hd ht
      rwa [List.cons_append] at h2
    have hstep : groupGo sep pw ((a :: ints) ++ t) =
        (if (pw == isWordCharJs a) && groupsAhead (a :: (ints ++ t)) then sep else []) ++
          a :: groupGo sep (isWordCharJs a) (ints ++ t) := rfl
    have hstep2 : groupGo sep pw (a :: ints) =
        (if (pw == isWordCharJs a) && groupsAhead (a :: ints) then sep else []) ++
          a :: groupGo sep (isWordCharJs a) ints := rfl
    rw [hstep, hstep2, hGA, ih (isWordCharJs a) (fun x hx => hd x (by simp [hx]))]
    simp [List.append_assoc]

theorem digitChar_isDigit (k : ℕ) (h : k < 10) : (digitChar k).isDigit = true := by
  interval_cases k <;> decide

theorem natDigitsAux_digits : ∀ (fuel n : ℕ), ∀ c ∈ natDigitsAux fuel n, c.isDigit = true := by
  intro fuel
  induction fuel with
  | zero => intro n c hc; simp [natDigitsAux] at hc
  | succ fuel ih =>
    intro n c hc
    by_cases h : n < 10
    · simp only [natDigitsAux, if_pos h, List.mem_singleton] at hc
      exact hc ▸ digitChar_isDigit n h
    · simp only [natDigitsAux, if_neg h, List.mem_append, List.mem_singleton] at hc
      rcases hc with hc | hc
      · exact ih (n / 10) c hc
      · exact hc ▸ digitChar_isDigit (n % 10) (Nat.mod_lt n (by omega))

theorem natDigits_digits (n : ℕ) : ∀ c ∈ natDigits n, c.isDigit = true :=
  natDigitsAux_digits (n + 1) n

theorem natDigitsAux_length : ∀ (fuel n d : ℕ), 1 ≤ d → n < 10 ^ d →
    (natDigitsAux fuel n).length ≤ d := by
  intro fuel
  induction fuel with
  | zero =>
    intro n d h1 _
    simp [natDigitsAux]
  | succ fuel ih =>
    intro n d h1 h2
    by_cases h : n < 10
    · simp only [natDigitsAux, if_pos h, List.length_singleton]
      omega
    · simp only [natDigitsAux, if_neg h, List.length_append, List.length_singleton]
      have hd2 : 2 ≤ d := by
        by_contra hlt
        have hd1 : d = 1 := by omega
        rw [hd1, pow_one] at h2
        omega
      have hdiv : n / 10 < 10 ^ (d - 1) := by
        rw [Nat.div_lt_iff_lt_mul (by omega : 0 < 10)]
        calc n < 10 ^ d := h2
          _ = 10 ^ (d - 1) * 10 := by
            rw [← pow_succ]
            congr 1
            omega
      have := ih (n / 10) (d - 1) (by omega) hdiv
      omega

theorem natDigits_length_le (n d : ℕ) (h1 : 1 ≤ d) (h2 : n < 10 ^ d) :
    (natDigits n).length ≤ d :=
  natDigitsAux_length (n + 1) n d h1 h2

theorem fixedIntDigits_digits (q : ℚ) (d : ℕ) :
    ∀ c ∈ fixedIntDigits q d, c.isDigit = true :=
  natDigits_digits _

theorem fixedFracDigits_digits (q : ℚ) (d : ℕ) :
    ∀ c ∈ fixedFracDigits q d, c.isDigit = true := by
  intro c hc
  simp only [fixedFracDigits, List.mem_append, List.mem_replicate] at hc
  rcases hc with hc | hc
  · rw [hc.2]; decide
  · exact natDigits_digits _ c hc

theorem fixedFracDigits_length (q : ℚ) (d : ℕ) (h1 : 1 ≤ d) :
    (fixedFracDigits q d).length = d := by
  simp only [fixedFracDigits, List.length_append, List.length_replicate]
  have := natDigits_length_le ((fixedScaled q d).toNat % 10 ^ d) d h1
    (Nat.mod_lt _ (by positivity))
  omega

theorem digit_ne_dot (c : Char) (h : c.isDigit = true) : ¬ c = '.' := by
  intro heq
  rw [heq] at h
  exact absurd h (by decide)

theorem replaceFirstDot_after_digits (dsep : List Char) :
    ∀ (ints frac : List Char), (∀ c ∈ ints, c.isDigit = true) →
    replaceFirstDot dsep (ints ++ '.' :: frac) = ints ++ (dsep ++ frac) := by
  intro ints
  induction ints with
  | nil =>
    intro frac _
    simp [replaceFirstDot]
  | cons a ints ih =>
    intro frac hd
    have ha : ¬ a = '.' := digit_ne_dot a (hd a (by simp))
    have hstep : replaceFirstDot dsep ((a :: ints) ++ '.' :: frac) =
        (if a = '.' then dsep ++ (ints ++ '.' :: frac)
         else a :: replaceFirstDot dsep (ints ++ '.' :: frac)) := rfl
    rw [hstep, if_neg ha, ih frac (fun x hx => hd x (by simp [hx]))]
    rfl

/-- Counterexample to C8 as stated: with `price_decimals = 4` the regex
lookahead matches inside the fraction.  `formatPrice(1.2345)` renders as
`"$1.2,345"` — the thousand separator lands between the fractional digits —
whereas a grouping confined to the integer part would give `"$1.2345"`
(the formatted number with the fraction digits reproduced verbatim after
the decimal separator). -/
theorem formatPrice_fraction_grouped_counterexample :
    formatPrice (12345/10000 : ℚ) ⟨some 4, some ".", some ",", some "$", some "left"⟩ =
      Except.ok "$1.2,345" ∧
    formattedNumber (12345/10000 : ℚ) 4 ['.'] [','] ≠
      groupGo [','] false (fixedIntDigits |(12345/10000 : ℚ)| 4) ++
        ('.' :: fixedFracDigits |(12345/10000 : ℚ)| 4) := by
  have habs : |(12345/10000 : ℚ)| = 12345/10000 := abs_of_nonneg (by norm_num)
  have h1 : fixedScaled |(12345/10000 : ℚ)| 4 = 12345 := by
    rw [habs]; norm_num [fixedScaled]
  constructor
  · simp only [formatPrice, formattedNumber, toFixedList, fixedIntDigits, fixedFracDigits, h1]
    rw [if_neg (by norm_num : ¬ (12345/10000 : ℚ) < 0)]
    exact congrArg Except.ok (by decide)
  · simp only [formattedNumber, toFixedList, fixedIntDigits, fixedFracDigits, h1]
    decide

/-- Claim C8, amended: the thousand-separator insertion leaves the
fractional digits untouched whenever the configured decimal count is at
most 3 and the decimal separator is a non-empty string of non-word
characters (as every real-world separator is); the formatted number is then
the grouped integer digits, the decimal separator, and the `toFixed`
fraction digits verbatim.  For `price_decimals ≥ 4` this fails — the regex
`\B(?=(\d\x7b3\x7d)+(?!\d))` also fires inside a long enough fraction (see
the counterexample). -/
theorem formattedNumber_fraction_untouched (p : ℚ) (d : ℕ) (dsep tsep : List Char)
    (hd1 : 1 ≤ d) (hd3 : d ≤ 3) (hne : dsep ≠ [])
    (hw : ∀ c ∈ dsep, isWordCharJs c = false) :
    formattedNumber p d dsep tsep =
      groupGo tsep false (fixedIntDigits |p| d) ++ (dsep ++ fixedFracDigits |p| d) := by
  unfold formattedNumber toFixedList
  rw [if_neg (by omega : ¬ d = 0)]
  rw [replaceFirstDot_after_digits dsep (fixedIntDigits |p| d) (fixedFracDigits |p| d)
    (fixedIntDigits_digits |p| d)]
  have hfr : (fixedFracDigits |p| d).length ≤ 3 := by
    rw [fixedFracDigits_length |p| d hd1]
    omega
  have htail : ∀ pw : Bool, groupGo tsep pw (dsep ++ fixedFracDigits |p| d) =
      dsep ++ fixedFracDigits |p| d :=
    fun pw => groupGo_tail tsep (fixedFracDigits |p| d) (fixedFracDigits_digits |p| d)
      hfr dsep pw hne hw
  have ht : headNotDigit (dsep ++ fixedFracDigits |p| d) = true := by
    rcases hds : dsep with _ | ⟨c, cs⟩
    · exact absurd hds hne
    · have hcw : isWordCharJs c = false := hw c (by rw [hds]; simp)
      have hcd : c.isDigit = false := nonword_notDigit c hcw
      simp [headNotDigit, hcd]
  exact groupGo_digits_prefix tsep (dsep ++ fixedFracDigits |p| d) ht htail
    (fixedIntDigits |p| d) false (fixedIntDigits_digits |p| d)

/-- Witness for the amended C8: at `1234.56` with two decimals and the
usual separators, the formatted number is the grouped integer digits, the
dot, and the two fraction digits untouched. -/
theorem formattedNumber_fraction_untouched_witness :
    formattedNumber (123456/100 : ℚ) 2 ['.'] [','] =
      groupGo [','] false (fixedIntDigits |(123456/100 : ℚ)| 2) ++
        ('.' :: fixedFracDigits |(123456/100 : ℚ)| 2) :=
  formattedNumber_fraction_untouched (123456/100 : ℚ) 2 ['.'] [',']
    (by omega) (by omega) (by simp) (by decide)
